import Mathlib

/-!
Verification development for the ggv retrieval-and-generation pipeline.

The Python source is shallowly embedded: pure functions become Lean
functions, external collaborators (vector store, reranker, language model,
embedding model) become function parameters, and fallible collaborator
calls return `Except`.  Machine strings are Lean `String`s, Python lists
are Lean `List`s, and floating-point scores are modelled as `ℚ`.
-/

namespace GGV

/-- Python `str.strip()` on a list of characters: drop whitespace from both
ends. -/
def stripChars (l : List Char) : List Char :=
  ((l.dropWhile Char.isWhitespace).reverse.dropWhile Char.isWhitespace).reverse

/-- Python `str.strip()` on strings. -/
def pyStrip (s : String) : String := String.mk (stripChars s.toList)

/-- Helper for `pyWords`: accumulate the current word (reversed) while
scanning. -/
def wordsAux (cur : List Char) : List Char → List (List Char)
  | [] => if cur.isEmpty then [] else [cur.reverse]
  | c :: cs =>
    if c.isWhitespace then
      if cur.isEmpty then wordsAux [] cs else cur.reverse :: wordsAux [] cs
    else wordsAux (c :: cur) cs

/-- Python `str.split()` with no separator: maximal runs of non-whitespace
characters, with empty pieces discarded. -/
def pyWords (s : String) : List String := (wordsAux [] s.toList).map String.mk

/-- Does `needle` occur as a contiguous sublist of the second argument? -/
def isSubList (needle : List Char) : List Char → Bool
  | [] => needle.isEmpty
  | c :: cs => needle.isPrefixOf (c :: cs) || isSubList needle cs

/-- Python `sub in s` substring containment. -/
def containsSub (s sub : String) : Bool := isSubList sub.toList s.toList

/-- Last `n` elements of a list, Python `l[-n:]` for `n > 0`. -/
def takeLast (n : Nat) (l : List α) : List α := l.drop (l.length - n)

/-- Python `str.lower()` (ASCII case folding, applied character-wise). -/
def pyLower (s : String) : String := String.mk (s.toList.map Char.toLower)

/-- A conversation turn, the tuple `(id, is_user, content, timestamp)`
supplied by the persistence collaborator (`app.py` line 883). -/
structure Turn where
  id : Nat
  isUser : Bool
  content : String
  timestamp : String
deriving DecidableEq

/-- Follow-up phrase set from `_analyze_query_type` (rag_system.py 265). -/
def follow_up_phrases : List String :=
  ["what about", "how about", "and", "also", "then", "so", "therefore",
   "but what if", "why", "could you", "additionally", "furthermore"]

/-- Pronoun set from `_analyze_query_type` (rag_system.py 269). -/
def pronoun_words : List String :=
  ["it", "they", "them", "this", "that", "these", "those"]

/-- Comparative phrase set (rag_system.py 279). -/
def comparative_phrases : List String :=
  ["versus", "compare", "comparison", "difference", "vs", "better",
   "advantages", "disadvantages", "pros and cons", "relative to"]

/-- Analytical phrase set (rag_system.py 286). -/
def analytical_phrases : List String :=
  ["analyze", "analysis", "evaluate", "assessment", "outlook",
   "perspective", "implications", "impact", "effects", "strategy",
   "recommend", "opportunity", "risk", "potential", "forecast"]

/-- Factual phrase set (rag_system.py 294). -/
def factual_phrases : List String :=
  ["what is", "how much", "when did", "where is", "who is",
   "data", "statistics", "numbers", "percentage", "rate", "figure",
   "amount", "total", "count", "value"]

/-- Market phrase set (rag_system.py 302). -/
def market_phrases : List String :=
  ["market", "industry", "sector", "overview", "landscape",
   "trends", "growth", "expansion", "decline", "outlook"]

/-- Overview word set used together with `market_phrases` (rag_system.py 305). -/
def overview_words : List String :=
  ["overview", "summary", "landscape", "state of"]

/-- Legal-entity suffix tokens (rag_system.py 309). -/
def company_indicators : List String :=
  [" inc", " corp", " ltd", " llc"]

/-- Embedding of `RAGSystem._analyze_query_type` (rag_system.py 257-313):
lowercase the message, then evaluate the cascading conditionals in source
order (first match wins). -/
def analyze_query_type (user_message : String) (chat_history : List Turn) : String :=
  let message := pyLower user_message
  let message_words := pyWords message
  let is_short_query := decide (message_words.length < 5)
  let has_pronouns := pronoun_words.any (fun w => message_words.contains w)
  if !chat_history.isEmpty &&
      (follow_up_phrases.any (fun p => containsSub message p) ||
        (is_short_query && has_pronouns)) then
    ("follow_up")
  else if comparative_phrases.any (fun p => containsSub message p) then
    ("comparative")
  else if analytical_phrases.any (fun p => containsSub message p) then
    ("analytical")
  else if factual_phrases.any (fun p => containsSub message p) then
    ("factual")
  else if market_phrases.any (fun p => containsSub message p) &&
      overview_words.any (fun w => containsSub message w) then
    ("market_overview")
  else if (containsSub message ("company") ||
        company_indicators.any (fun p => containsSub message p)) &&
      decide (message_words.length < 15) then
    ("company_profile")
  else
    ("general")

/-- C6: the classifier is a pure, case-insensitive ordered decision list
with precedence follow_up, comparative, analytical, factual,
market_overview, company_profile, general; in particular
`classify ("Compare X versus Y") [] = comparative`,
`classify ("it") h = follow_up` for any non-empty history `h`, and
`classify ("What is the market cap?") [] = factual`. -/
theorem c6_classifier_decision_list :
    analyze_query_type ("Compare X versus Y") [] = ("comparative")
    ∧ (∀ h : List Turn, h ≠ [] → analyze_query_type ("it") h = ("follow_up"))
    ∧ analyze_query_type ("What is the market cap?") [] = ("factual") := by
  refine ⟨by decide, ?_, by decide⟩
  intro h hne
  cases h with
  | nil => exact absurd rfl hne
  | cons a t => rfl

/-- Witness for C6: the follow-up clause evaluated on a concrete
one-turn history. -/
theorem c6_classifier_decision_list_witness :
    analyze_query_type ("it") [⟨1, true, ("hello"), ("t0")⟩] = ("follow_up") :=
  c6_classifier_decision_list.2.1 [⟨1, true, ("hello"), ("t0")⟩]
    (List.cons_ne_nil _ _)

/-- Conversation transcript line format used by `_extract_key_topics` and
`_update_conversation_memory` (rag_system.py 205, 591). -/
def transcriptOf (h : List Turn) : String :=
  String.intercalate ("\n")
    (h.map (fun e => (if e.isUser then ("User: ") else ("Assistant: ")) ++ e.content))

/-- Prompt built by `_update_conversation_memory` when a prior summary
exists (rag_system.py 596-609). -/
def memoryMergePrompt (conversation_summary transcript : String) : String :=
  ("\nPrevious conversation summary:\n") ++ conversation_summary ++
  ("\n\nNew conversation segment:\n") ++ transcript ++
  ("\n\nCreate an updated summary of the entire conversation that:\n1. Integrates new information with the previous summary\n2. Preserves key topics, entities, and data points from the entire conversation\n3. Is organized by topic rather than chronologically\n4. Focuses on information that might be referenced in follow-up questions\n5. Is concise but comprehensive\n")

/-- Prompt built by `_update_conversation_memory` when no prior summary
exists (rag_system.py 611-620). -/
def memoryFreshPrompt (transcript : String) : String :=
  ("\nBased on this conversation:\n") ++ transcript ++
  ("\n\nCreate a summary that:\n1. Identifies key topics, entities, and data points discussed\n2. Is organized by topic rather than chronologically\n3. Focuses on information that might be referenced in follow-up questions\n4. Is concise but comprehensive\n")

/-- Embedding of `RAGSystem._update_conversation_memory`
(rag_system.py 579-638).  The `co.chat` language-model collaborator is the
`chat` parameter; a raised exception is an `Except.error` result.  The
function returns the new value of the `conversation_summary` field. -/
def update_conversation_memory (chat : String → Except String String)
    (conversation_summary : String) (user_message : String)
    (chat_history : List Turn) : String :=
  if chat_history.length < 4 then
    conversation_summary
  else
    let recent_exchanges :=
      if 10 ≤ chat_history.length then takeLast 10 chat_history else chat_history
    let transcript := transcriptOf recent_exchanges ++ ("\nUser: ") ++ user_message
    let prompt :=
      if conversation_summary ≠ ("") then
        memoryMergePrompt conversation_summary transcript
      else memoryFreshPrompt transcript
    match chat prompt with
    | .ok t => t
    | .error _ =>
      if 8 < chat_history.length then
        ("Topics discussed: ") ++
          String.intercalate (" | ")
            (takeLast 5 ((chat_history.filter (·.isUser)).map (·.content)))
      else conversation_summary

/-- C9: with fewer than 4 turns of history, the rolling-summary update is
a no-op: for every language-model collaborator, summary and message the
stored summary is returned unchanged (so no model call can influence the
result and no state is mutated). -/
theorem c9_summary_update_noop (chat : String → Except String String)
    (conversation_summary user_message : String) (chat_history : List Turn)
    (hlen : chat_history.length < 4) :
    update_conversation_memory chat conversation_summary user_message chat_history
      = conversation_summary := by
  unfold update_conversation_memory
  simp [hlen]

/-- Witness for C9 at a concrete 3-turn history and an always-answering
model collaborator. -/
theorem c9_summary_update_noop_witness :
    update_conversation_memory (fun _ => .ok ("model output")) ("old summary")
      ("msg")
      [⟨1, true, ("a"), ("t1")⟩, ⟨2, false, ("b"), ("t2")⟩, ⟨3, true, ("c"), ("t3")⟩]
      = ("old summary") :=
  c9_summary_update_noop _ _ _ _ (by decide)

/-- Embedding of `RAGSystem._extract_key_topics` (rag_system.py 194-227).
The `co.summarize` collaborator is the `summarize` parameter.  The basic
fallback concatenates the last 3 user queries. -/
def extract_key_topics (summarize : String → Except String String)
    (chat_history : List Turn) : String :=
  if chat_history.isEmpty then ("")
  else
    let user_queries := (chat_history.filter (·.isUser)).map (·.content)
    let basic :=
      if user_queries.isEmpty then ("")
      else String.intercalate (" ") (takeLast 3 user_queries)
    if 5 < chat_history.length then
      match summarize (transcriptOf (takeLast 15 chat_history)) with
      | .ok s => s
      | .error _ => basic
    else basic

/-- The up-to-3 most recent user-authored turns, in chronological order:
`_create_hybrid_query` (rag_system.py 163-180) scans the history backward
collecting user messages, stops at 3, and reverses, which is the last 3
user contents in original order. -/
def recentUserQueries (chat_history : List Turn) : List String :=
  takeLast 3 ((chat_history.filter (·.isUser)).map (·.content))

/-- Embedding of `RAGSystem._create_hybrid_query` (rag_system.py 156-192). -/
def create_hybrid_query (summarize : String → Except String String)
    (current_query : String) (chat_history : List Turn) : String :=
  if chat_history.isEmpty then current_query
  else
    let recent_queries := recentUserQueries chat_history
    let conversation_context := extract_key_topics summarize chat_history
    if ¬recent_queries.isEmpty ∧ conversation_context ≠ ("") then
      current_query ++ (" ") ++ String.intercalate (" ") recent_queries ++
        (" ") ++ conversation_context
    else if ¬recent_queries.isEmpty then
      current_query ++ (" ") ++ String.intercalate (" ") recent_queries
    else current_query

/-- A Pinecone query match: the stored metadata (`text`, `source`) plus the
similarity score. -/
structure VMatch where
  meta_text : String
  meta_source : String
  score : ℚ
deriving DecidableEq

/-- A retrieved document as assembled in `retrieve_documents`
(rag_system.py 51-59): text and metadata from the match, the initial
vector score, and an optional rerank score attached later. -/
structure RetrievedDoc where
  text : String
  meta_text : String
  meta_source : String
  initial_score : ℚ
  rerank_score : Option ℚ
deriving DecidableEq

/-- One result entry of the Cohere rerank response. -/
structure RerankResult where
  index : Nat
  relevance_score : ℚ
deriving DecidableEq

/-- Initial results assembled from the vector-store matches
(rag_system.py 51-59). -/
def mkInitialResults (vmatches : List VMatch) : List RetrievedDoc :=
  vmatches.map (fun m => ⟨m.meta_text, m.meta_text, m.meta_source, m.score, none⟩)

/-- The context-aware rerank query (rag_system.py 65). -/
def contextAwareQuery (query topics : String) : String :=
  query ++ (" (In the context of: ") ++ topics ++ (")")

/-- The body of the `try` block around reranking (rag_system.py 63-81):
call the reranker, look up the initial result at each returned index (a
bad index raises, failing the whole block), attach rerank scores, sort
descending by rerank score, and truncate to 5. -/
def rerankTryBlock
    (rerank : String → List String → Nat → Except String (List RerankResult))
    (query topics : String) (initial_results : List RetrievedDoc)
    (candidate_texts : List String) : Except String (List RetrievedDoc) := do
  let results ← rerank (contextAwareQuery query topics) candidate_texts
    (min 8 candidate_texts.length)
  let reranked_results ← results.mapM (fun res =>
    match initial_results.get? res.index with
    | some doc => Except.ok { doc with rerank_score := some res.relevance_score }
    | none => Except.error ("IndexError"))
  let sorted := reranked_results.insertionSort
    (fun a b => (b.rerank_score.getD 0) ≤ (a.rerank_score.getD 0))
  return sorted.take 5

/-- The part of `retrieve_documents` that runs once the vector query has
returned its matches (rag_system.py 51-86): build the initial results,
and if there are candidates rerank them, falling back to the first 5
initial results when the rerank block raises; with zero candidates the
result is `[]`.  This part never raises. -/
def retrieveFromMatches
    (rerank : String → List String → Nat → Except String (List RerankResult))
    (query topics : String) (vmatches : List VMatch) : List RetrievedDoc :=
  if ¬((mkInitialResults vmatches).map (·.text)).isEmpty then
    match rerankTryBlock rerank query topics (mkInitialResults vmatches)
        ((mkInitialResults vmatches).map (·.text)) with
    | .ok reranked => reranked
    | .error _ => (mkInitialResults vmatches).take 5
  else []

/-- Embedding of `RAGSystem.retrieve_documents` (rag_system.py 34-86).
The embedding model plus the Pinecone index query are combined into the
`vectorQuery` collaborator taking the hybrid query string; the Cohere
reranker is `rerank`; `summarize` backs key-topic extraction.  Note that
in the source the vector query is NOT inside any `try` block: a raised
exception propagates out of `retrieve_documents`, hence the `Except`
result type. -/
def retrieve_documents
    (vectorQuery : String → Except String (List VMatch))
    (rerank : String → List String → Nat → Except String (List RerankResult))
    (summarize : String → Except String String)
    (query : String) (chat_history : List Turn) :
    Except String (List RetrievedDoc) :=
  match vectorQuery (create_hybrid_query summarize query chat_history) with
  | .error e => .error e
  | .ok vmatches =>
    .ok (retrieveFromMatches rerank query
      (extract_key_topics summarize chat_history) vmatches)

/-- A successful rerank block returns at most 5 documents. -/
theorem rerankTryBlock_ok_length
    (rerank : String → List String → Nat → Except String (List RerankResult))
    (query topics : String) (initial_results : List RetrievedDoc)
    (candidate_texts : List String) (l : List RetrievedDoc)
    (h : rerankTryBlock rerank query topics initial_results candidate_texts
      = .ok l) : l.length ≤ 5 := by
  unfold rerankTryBlock at h
  cases h1 : rerank (contextAwareQuery query topics) candidate_texts
      (min 8 candidate_texts.length) with
  | error e => rw [h1] at h; exact absurd h (by simp [Bind.bind, Except.bind])
  | ok results =>
    rw [h1] at h
    simp only [Bind.bind, Except.bind] at h
    cases h2 : results.mapM (fun res =>
        match initial_results.get? res.index with
        | some doc => Except.ok { doc with rerank_score := some res.relevance_score }
        | none => Except.error ("IndexError")) with
    | error e => rw [h2] at h; exact absurd h (by simp)
    | ok reranked2 =>
      rw [h2] at h
      simp only [pure, Except.pure, Except.ok.injEq] at h
      subst h
      exact le_trans (List.length_take_le _ _) (by norm_num)

/-- The post-vector-query part of retrieval returns at most 5 documents. -/
theorem retrieveFromMatches_length_le
    (rerank : String → List String → Nat → Except String (List RerankResult))
    (query topics : String) (vmatches : List VMatch) :
    (retrieveFromMatches rerank query topics vmatches).length ≤ 5 := by
  unfold retrieveFromMatches
  split
  · split
    · next l hl => exact rerankTryBlock_ok_length _ _ _ _ _ _ hl
    · exact le_trans (List.length_take_le _ _) (by norm_num)
  · simp

/-- C3 counterexample: when the vector-store query raises, the failure is
NOT surfaced as an empty result set; `retrieve_documents` propagates the
error instead of returning `[]`. -/
theorem c3_vector_failure_counterexample :
    retrieve_documents (fun _ => .error ("vector query failure"))
        (fun _ _ _ => .ok []) (fun _ => .ok ("")) ("q") []
      = .error ("vector query failure")
    ∧ retrieve_documents (fun _ => .error ("vector query failure"))
        (fun _ _ _ => .ok []) (fun _ => .ok ("")) ("q") []
      ≠ .ok [] := by
  have h : retrieve_documents (fun _ => .error ("vector query failure"))
      (fun _ _ _ => .ok []) (fun _ => .ok ("")) ("q") []
      = .error ("vector query failure") := rfl
  exact ⟨h, fun hc => by rw [h] at hc; cases hc⟩

/-- C3 amended: a vector-query error propagates out of
`retrieve_documents` unchanged (there is no handler around the query in
the source); the empty list is returned only when the query succeeds with
zero candidates (see C4). -/
theorem c3_vector_failure_propagates
    (vectorQuery : String → Except String (List VMatch))
    (rerank : String → List String → Nat → Except String (List RerankResult))
    (summarize : String → Except String String)
    (query : String) (chat_history : List Turn) (e : String)
    (hq : vectorQuery (create_hybrid_query summarize query chat_history)
      = .error e) :
    retrieve_documents vectorQuery rerank summarize query chat_history
      = .error e := by
  unfold retrieve_documents
  rw [hq]

/-- Witness for C3 (amended) at a concrete failing vector store. -/
theorem c3_vector_failure_propagates_witness :
    retrieve_documents (fun _ => .error ("down")) (fun _ _ _ => .ok [])
        (fun _ => .ok ("")) ("q") [] = .error ("down") :=
  c3_vector_failure_propagates _ _ _ _ _ _ rfl

/-- C4: a successful retrieval returns at most 5 documents, and a
successful vector query with zero candidates yields the empty list. -/
theorem c4_retrieve_result_bound
    (vectorQuery : String → Except String (List VMatch))
    (rerank : String → List String → Nat → Except String (List RerankResult))
    (summarize : String → Except String String)
    (query : String) (chat_history : List Turn) :
    (∀ docs, retrieve_documents vectorQuery rerank summarize query chat_history
        = .ok docs → docs.length ≤ 5)
    ∧ (vectorQuery (create_hybrid_query summarize query chat_history) = .ok []
        → retrieve_documents vectorQuery rerank summarize query chat_history
          = .ok []) := by
  constructor
  · intro docs hdocs
    unfold retrieve_documents at hdocs
    cases hv : vectorQuery (create_hybrid_query summarize query chat_history) with
    | error e => rw [hv] at hdocs; cases hdocs
    | ok vmatches =>
      rw [hv] at hdocs
      simp only [Except.ok.injEq] at hdocs
      subst hdocs
      exact retrieveFromMatches_length_le _ _ _ _
  · intro hv
    unfold retrieve_documents
    rw [hv]
    rfl

/-- Witness for C4: a concrete 6-match vector store with a succeeding
reranker, and a concrete empty vector store. -/
theorem c4_retrieve_result_bound_witness :
    (∀ docs,
      retrieve_documents
          (fun _ => .ok [⟨("a"), ("s"), 1⟩, ⟨("b"), ("s"), 1⟩, ⟨("c"), ("s"), 1⟩,
            ⟨("d"), ("s"), 1⟩, ⟨("e"), ("s"), 1⟩, ⟨("f"), ("s"), 1⟩])
          (fun _ _ _ => .ok [⟨0, 1⟩, ⟨1, 2⟩]) (fun _ => .ok ("")) ("q") []
        = .ok docs → docs.length ≤ 5)
    ∧ (retrieve_documents (fun _ => .ok []) (fun _ _ _ => .ok [⟨0, 1⟩])
        (fun _ => .ok ("")) ("q") [] = .ok []) :=
  ⟨(c4_retrieve_result_bound _ _ _ _ _).1,
   (c4_retrieve_result_bound _ _ _ _ _).2 rfl⟩

/-- C5: if the reranker raises (modelled as a collaborator returning an
error on every call) and the vector query succeeds with a non-empty match
list, retrieval returns the first 5 initial results in their original
order, and the error does not propagate. -/
theorem c5_rerank_fallback
    (vectorQuery : String → Except String (List VMatch))
    (summarize : String → Except String String)
    (query : String) (chat_history : List Turn) (e : String)
    (vmatches : List VMatch)
    (hv : vectorQuery (create_hybrid_query summarize query chat_history)
      = .ok vmatches)
    (hne : vmatches ≠ []) :
    retrieve_documents vectorQuery (fun _ _ _ => .error e) summarize query
        chat_history
      = .ok ((mkInitialResults vmatches).take 5) := by
  unfold retrieve_documents
  rw [hv]
  simp only [Except.ok.injEq]
  unfold retrieveFromMatches
  rw [if_pos]
  · rfl
  · simp [mkInitialResults]
    intro hcontra
    exact absurd hcontra hne

/-- Witness for C5: a concrete 6-match vector store and an always-failing
reranker. -/
theorem c5_rerank_fallback_witness :
    retrieve_documents
        (fun _ => .ok [⟨("a"), ("s"), 6⟩, ⟨("b"), ("s"), 5⟩, ⟨("c"), ("s"), 4⟩,
          ⟨("d"), ("s"), 3⟩, ⟨("e"), ("s"), 2⟩, ⟨("f"), ("s"), 1⟩])
        (fun _ _ _ => .error ("rerank down")) (fun _ => .ok ("")) ("q") []
      = .ok ((mkInitialResults [⟨("a"), ("s"), 6⟩, ⟨("b"), ("s"), 5⟩, ⟨("c"), ("s"), 4⟩,
          ⟨("d"), ("s"), 3⟩, ⟨("e"), ("s"), 2⟩, ⟨("f"), ("s"), 1⟩]).take 5) :=
  c5_rerank_fallback _ _ _ _ ("rerank down") _ rfl (List.cons_ne_nil _ _)

/-- Split a character list at every newline character.  Models the line
structure that the MULTILINE anchors of `MAIN_HEADING_PATTERN`
(chunking.py 8) operate on. -/
def splitNl : List Char → List (List Char)
  | [] => [[]]
  | c :: cs =>
    let r := splitNl cs
    if c = '\n' then [] :: r else (c :: r.headD []) :: r.tail

/-- Join character-list lines with newline separators (inverse of
`splitNl` for newline-free lines). -/
def joinNl : List (List Char) → List Char
  | [] => []
  | [x] => x
  | x :: y :: ys => x ++ '\n' :: joinNl (y :: ys)

/-- A line matched by `MAIN_HEADING_PATTERN` = `^# (?!\*)(.+)`
(chunking.py 8): it starts with a hash and a space, and there is at least
one more character on the line, which is not an asterisk. -/
def isHeadingLine : List Char → Bool
  | '#' :: ' ' :: c :: _ => c ≠ '*'
  | _ => false

/-- A parsed markdown section, the dict
`{"main_heading": ..., "content": ...}` of chunking.py 32-35. -/
structure MdSection where
  main_heading : String
  content : String
deriving DecidableEq

/-- Dropping a prefix cannot lengthen a list. -/
theorem dropWhile_length_le (p : α → Bool) (l : List α) :
    (l.dropWhile p).length ≤ l.length := by
  induction l with
  | nil => simp [List.dropWhile]
  | cons a t ih =>
    simp only [List.dropWhile]
    split
    · exact Nat.le_succ_of_le ih
    · simp

/-- Pair each heading line (with the `"# "` marker dropped, i.e. the
captured group of the pattern) with the lines up to the next heading.
Models the alternating capture/content pieces `parts[1:]` that
`re.split` produces in `parse_markdown` (chunking.py 24-31). -/
def gatherSections : List (List Char) → List (List Char × List (List Char))
  | [] => []
  | l :: ls =>
    if isHeadingLine l then
      (l.drop 2, ls.takeWhile (fun x => ¬ isHeadingLine x)) ::
        gatherSections (ls.dropWhile (fun x => ¬ isHeadingLine x))
    else gatherSections ls
termination_by l => l.length
decreasing_by
  · exact Nat.lt_succ_of_le (dropWhile_length_le _ _)
  · simp

/-- Embedding of `parse_markdown` (chunking.py 22-36).  `re.split` with
the capturing heading pattern yields `[preamble, h1, c1, h2, c2, ...]`;
`len(parts) < 2` holds exactly when no line matches the heading pattern,
in which case the whole stripped input becomes one section with an empty
heading.  Otherwise `parts = parts[1:]` drops the preamble and the
code pairs each captured heading with the following content piece; each
content piece is the text up to the next heading line (its surrounding
newlines disappear under `strip()`). -/
def parse_markdown (md_text : String) : List MdSection :=
  let parts := splitNl md_text.toList
  if parts.all (fun l => !isHeadingLine l) then
    [⟨(""), pyStrip md_text⟩]
  else
    (gatherSections (parts.dropWhile (fun l => !isHeadingLine l))).map
      (fun p => ⟨String.mk (stripChars p.1), String.mk (stripChars (joinNl p.2))⟩)

/-- `splitNl` always yields at least one (possibly empty) line. -/
theorem splitNl_ne_nil (l : List Char) : splitNl l ≠ [] := by
  cases l with
  | nil => simp [splitNl]
  | cons c cs =>
    simp only [splitNl]
    split <;> simp

/-- A newline-free character list is a single line. -/
theorem splitNl_no_nl (x : List Char) (hx : ('\n') ∉ x) : splitNl x = [x] := by
  induction x with
  | nil => rfl
  | cons c cs ih =>
    simp only [List.mem_cons, not_or] at hx
    simp [splitNl, ih hx.2, Ne.symm hx.1]

/-- Prepending a newline-free block extends the first line of a split. -/
theorem splitNl_append (x : List Char) (hx : ('\n') ∉ x) (r : List Char) :
    splitNl (x ++ r) = (x ++ (splitNl r).headD []) :: (splitNl r).tail := by
  induction x with
  | nil =>
    simp only [List.nil_append]
    cases h : splitNl r with
    | nil => exact absurd h (splitNl_ne_nil r)
    | cons a t => simp
  | cons c cs ih =>
    simp only [List.mem_cons, not_or] at hx
    have hc : ¬c = ('\n') := fun h => hx.1 h.symm
    show splitNl (c :: (cs ++ r)) = _
    rw [splitNl.eq_def]
    simp only [if_neg hc, ih hx.2]
    simp

/-- Splitting on newlines inverts joining newline-free lines. -/
theorem splitNl_joinNl (ps : List (List Char)) (hne : ps ≠ [])
    (h : ∀ p ∈ ps, ('\n') ∉ p) : splitNl (joinNl ps) = ps := by
  induction ps with
  | nil => exact absurd rfl hne
  | cons x ys ih =>
    cases ys with
    | nil => simp [joinNl, splitNl_no_nl x (h x (by simp))]
    | cons y ys2 =>
      have hx : ('\n') ∉ x := h x (by simp)
      have hrest : splitNl (joinNl (y :: ys2)) = y :: ys2 :=
        ih (by simp) (fun p hp => h p (by simp [hp]))
      show splitNl (x ++ ('\n') :: joinNl (y :: ys2)) = x :: y :: ys2
      rw [splitNl_append x hx]
      have hcons : splitNl (('\n') :: joinNl (y :: ys2)) = [] :: y :: ys2 := by
        simp [splitNl, hrest]
      rw [hcons]
      simp

/-- Dropping while a predicate holds skips over a block where it holds
everywhere. -/
theorem dropWhile_append_all (p : α → Bool) (xs ys : List α)
    (h : ∀ a ∈ xs, p a = true) :
    (xs ++ ys).dropWhile p = ys.dropWhile p := by
  induction xs with
  | nil => rfl
  | cons a t ih =>
    simp only [List.cons_append, List.dropWhile, h a (by simp)]
    exact ih (fun b hb => h b (by simp [hb]))

/-- C10: if the document has at least one top-level heading line, any text
before the first heading is discarded by `parse_markdown` (parsing the
document equals parsing the part from the first heading on, so the
preamble appears in no section); only when the document has no heading
line is the entire stripped input kept as one section with an empty
heading. -/
theorem c10_preamble_discarded :
    (∀ (pre rest : List (List Char)),
      (∀ l ∈ pre ++ rest, ('\n') ∉ l) →
      (∀ l ∈ pre, isHeadingLine l = false) →
      isHeadingLine (rest.headD []) = true →
      parse_markdown (String.mk (joinNl (pre ++ rest)))
        = parse_markdown (String.mk (joinNl rest)))
    ∧ (∀ md : String,
      (∀ l ∈ splitNl md.toList, isHeadingLine l = false) →
      parse_markdown md = [⟨(""), pyStrip md⟩]) := by
  constructor
  · intro pre rest hnl hpre hhead
    obtain ⟨h0, t0, rfl⟩ : ∃ h0 t0, rest = h0 :: t0 := by
      cases rest with
      | nil => exact absurd hhead (by simp [isHeadingLine])
      | cons a t => exact ⟨a, t, rfl⟩
    have hhead0 : isHeadingLine h0 = true := by simpa using hhead
    have hsplit1 : splitNl (String.mk (joinNl (pre ++ h0 :: t0))).toList
        = pre ++ h0 :: t0 :=
      splitNl_joinNl _ (by simp) hnl
    have hsplit2 : splitNl (String.mk (joinNl (h0 :: t0))).toList = h0 :: t0 :=
      splitNl_joinNl _ (by simp) (fun p hp => hnl p (by simp [hp]))
    unfold parse_markdown
    rw [hsplit1, hsplit2]
    rw [if_neg, if_neg]
    · rw [dropWhile_append_all _ pre (h0 :: t0)
        (fun l hl => by simp [hpre l hl])]
    · simp only [List.all_eq_true, not_forall]
      exact ⟨h0, by simp, by simp [hhead0]⟩
    · simp only [List.all_eq_true, not_forall]
      exact ⟨h0, by simp, by simp [hhead0]⟩
  · intro md hall
    unfold parse_markdown
    rw [if_pos]
    simp only [List.all_eq_true]
    intro l hl
    simp [hall l hl]

/-- Witness for C10: a concrete document whose preamble line `xy` is
discarded. -/
theorem c10_preamble_discarded_witness :
    parse_markdown (String.mk (joinNl ([[('x'), ('y')]] ++
        [[('#'), (' '), ('H')], [('b')]])))
      = parse_markdown (String.mk (joinNl [[('#'), (' '), ('H')], [('b')]])) :=
  c10_preamble_discarded.1 [[('x'), ('y')]] [[('#'), (' '), ('H')], [('b')]]
    (by decide) (by decide) (by decide)

/-- A chunk handed to the indexer: its text and optional source
(`chunk.get("source", "unknown")`, embedding.py 58). -/
structure ChunkRec where
  text : String
  source : Option String
deriving DecidableEq

/-- A vector record upserted to Pinecone (embedding.py 53-60). -/
structure VectorRec where
  id : String
  values : List ℚ
  meta_text : String
  meta_source : String
deriving DecidableEq

/-- The progress-tracking dictionary of
`generate_and_store_embeddings` (embedding.py 30-35). -/
structure BatchProgress where
  total_chunks : Nat
  total_batches : Nat
  processed_chunks : Nat
  processed_batches : Nat
deriving DecidableEq

/-- The default value of the `batch_size` parameter of
`generate_and_store_embeddings` (embedding.py 9). -/
def defaultBatchSize : Nat := 50

/-- The vector-record id `f"chunk_{batch_num}_{i}"` (embedding.py 48). -/
def vecId (batch_num i : Nat) : String :=
  ("chunk_") ++ toString batch_num ++ ("_") ++ toString i

/-- The vectors built for one batch (embedding.py 46-60). -/
def batchVectors (embed : String → List ℚ) (current_batch : List ChunkRec)
    (batch_num : Nat) : List VectorRec :=
  current_batch.enum.map (fun p =>
    ⟨vecId batch_num p.1, embed p.2.text, p.2.text,
      p.2.source.getD ("unknown")⟩)

/-- The slice `chunks[start_idx:end_idx]` for batch `batch_num`
(embedding.py 41-43). -/
def gseBatch (chunks : List ChunkRec) (batch_size batch_num : Nat) :
    List ChunkRec :=
  (chunks.drop (batch_num * batch_size)).take
    (min ((batch_num + 1) * batch_size) chunks.length - batch_num * batch_size)

/-- One iteration of the batch loop (embedding.py 38-80): build the
batch vectors, attempt the upsert, and on success update the progress
stats; on failure (the `except` branch) skip the batch and continue.
The second component of the state records every batch of vectors
handed to the upsert collaborator. -/
def gseStep (embed : String → List ℚ)
    (upsert : List VectorRec → Except String Unit)
    (chunks : List ChunkRec) (batch_size : Nat)
    (st : BatchProgress × List (List VectorRec)) (batch_num : Nat) :
    BatchProgress × List (List VectorRec) :=
  match upsert (batchVectors embed (gseBatch chunks batch_size batch_num) batch_num) with
  | .ok _ =>
    (⟨st.1.total_chunks, st.1.total_batches,
      st.1.processed_chunks + (gseBatch chunks batch_size batch_num).length,
      st.1.processed_batches + 1⟩,
     st.2 ++ [batchVectors embed (gseBatch chunks batch_size batch_num) batch_num])
  | .error _ =>
    (st.1, st.2 ++ [batchVectors embed (gseBatch chunks batch_size batch_num) batch_num])

/-- Embedding of `generate_and_store_embeddings` (embedding.py 9-82).
The sentence-transformer encoder is the total `embed` collaborator; the
Pinecone upsert is the fallible `upsert` collaborator.
`total_batches = math.ceil(total_chunks / batch_size)`.  Besides the
returned `batch_progress` dictionary, the model returns the trace of all
generated vector batches, so that effects on the vector store are
observable. -/
def generate_and_store_embeddings (embed : String → List ℚ)
    (upsert : List VectorRec → Except String Unit)
    (chunks : List ChunkRec) (batch_size : Nat) :
    BatchProgress × List (List VectorRec) :=
  (List.range ((chunks.length + batch_size - 1) / batch_size)).foldl
    (gseStep embed upsert chunks batch_size)
    (⟨chunks.length, (chunks.length + batch_size - 1) / batch_size, 0, 0⟩, [])

/-- All vector-record ids generated across a run, in order. -/
def runVectorIds (trace : List (List VectorRec)) : List String :=
  trace.flatMap (fun vs => vs.map (·.id))

/-- A loop step never changes the `total_batches` field. -/
theorem gseStep_total_batches (embed : String → List ℚ)
    (upsert : List VectorRec → Except String Unit) (chunks : List ChunkRec)
    (batch_size : Nat) (st : BatchProgress × List (List VectorRec))
    (batch_num : Nat) :
    (gseStep embed upsert chunks batch_size st batch_num).1.total_batches
      = st.1.total_batches := by
  unfold gseStep
  cases upsert (batchVectors embed (gseBatch chunks batch_size batch_num) batch_num) with
  | ok _ => rfl
  | error _ => rfl

/-- The batch loop never changes the `total_batches` field. -/
theorem gseFoldl_total_batches (embed : String → List ℚ)
    (upsert : List VectorRec → Except String Unit) (chunks : List ChunkRec)
    (batch_size : Nat) (l : List Nat)
    (st : BatchProgress × List (List VectorRec)) :
    ((l.foldl (gseStep embed upsert chunks batch_size) st).1.total_batches)
      = st.1.total_batches := by
  induction l generalizing st with
  | nil => rfl
  | cons b t ih =>
    rw [List.foldl_cons, ih, gseStep_total_batches]

/-- C8 counterexample: the default batch size of the indexer is 50, not
100 as claimed; with 250 chunks the default run has 5 batches, not 3. -/
theorem c8_default_batch_size_counterexample :
    defaultBatchSize ≠ 100
    ∧ (generate_and_store_embeddings (fun _ => []) (fun _ => .ok ())
        (List.replicate 250 ⟨("x"), none⟩) defaultBatchSize).1.total_batches
      = 5 := by
  refine ⟨by decide, ?_⟩
  rw [generate_and_store_embeddings, gseFoldl_total_batches]
  show ((List.replicate 250 (⟨("x"), none⟩ : ChunkRec)).length
    + defaultBatchSize - 1) / defaultBatchSize = 5
  rw [List.length_replicate]
  decide

/-- A loop step appends exactly the vectors of its batch to the trace. -/
theorem gseStep_snd (embed : String → List ℚ)
    (upsert : List VectorRec → Except String Unit) (chunks : List ChunkRec)
    (batch_size : Nat) (st : BatchProgress × List (List VectorRec))
    (batch_num : Nat) :
    (gseStep embed upsert chunks batch_size st batch_num).2
      = st.2 ++ [batchVectors embed (gseBatch chunks batch_size batch_num) batch_num] := by
  unfold gseStep
  cases upsert (batchVectors embed (gseBatch chunks batch_size batch_num) batch_num) with
  | ok _ => rfl
  | error _ => rfl

/-- The trace accumulated by the batch loop is the batch list itself,
whether or not individual upserts fail. -/
theorem gseFoldl_trace (embed : String → List ℚ)
    (upsert : List VectorRec → Except String Unit) (chunks : List ChunkRec)
    (batch_size : Nat) (l : List Nat)
    (st : BatchProgress × List (List VectorRec)) :
    (l.foldl (gseStep embed upsert chunks batch_size) st).2
      = st.2 ++ l.map (fun b => batchVectors embed (gseBatch chunks batch_size b) b) := by
  induction l generalizing st with
  | nil => simp
  | cons b t ih =>
    rw [List.foldl_cons, ih, gseStep_snd]
    simp

/-- The ids of one batch are `vecId batch_num i` for the in-batch
offsets `i`. -/
theorem batchVectors_ids (embed : String → List ℚ)
    (current_batch : List ChunkRec) (batch_num : Nat) :
    (batchVectors embed current_batch batch_num).map (fun v => v.id)
      = (List.range current_batch.length).map (vecId batch_num) := by
  unfold batchVectors
  rw [List.map_map]
  show current_batch.enum.map ((vecId batch_num) ∘ Prod.fst) = _
  rw [← List.map_map, List.enum_map_fst]

/-- Length of the batch slice. -/
theorem gseBatch_length (chunks : List ChunkRec) (batch_size batch_num : Nat) :
    (gseBatch chunks batch_size batch_num).length
      = min ((batch_num + 1) * batch_size) chunks.length - batch_num * batch_size := by
  unfold gseBatch
  rw [List.length_take, List.length_drop]
  omega

/-- The (batch index, in-batch offset) pairs of a run over `n` chunks at
batch size `bs`. -/
def runPairs (n bs : Nat) : List (Nat × Nat) :=
  (List.range ((n + bs - 1) / bs)).flatMap
    (fun b => (List.range (min ((b + 1) * bs) n - b * bs)).map (fun i => (b, i)))

/-- The generated ids of a whole run are `vecId` applied to the run
pairs. -/
theorem runVectorIds_eq_map (embed : String → List ℚ)
    (upsert : List VectorRec → Except String Unit) (chunks : List ChunkRec)
    (batch_size : Nat) :
    runVectorIds ((generate_and_store_embeddings embed upsert chunks batch_size).2)
      = (runPairs chunks.length batch_size).map (fun p => vecId p.1 p.2) := by
  unfold generate_and_store_embeddings
  rw [gseFoldl_trace]
  unfold runVectorIds runPairs
  rw [List.nil_append, List.map_flatMap, List.flatMap_map]
  congr 1
  funext b
  rw [batchVectors_ids, gseBatch_length, List.map_map]
  rfl

/-- Decimal digits back to a number (for parsing `vecId` strings). -/
def digitsToNat (l : List Char) : Nat :=
  l.foldl (fun acc c => acc * 10 + (c.toNat - 48)) 0

/-- Parse a `vecId`-shaped string back into its two numbers; a left
inverse of `vecId` on the ids of a run. -/
def decodeVecId (s : String) : Option (Nat × Nat) :=
  match s.toList with
  | ('c') :: ('h') :: ('u') :: ('n') :: ('k') :: ('_') :: rest =>
    some (digitsToNat (rest.takeWhile (fun c => c ≠ ('_'))),
          digitsToNat ((rest.dropWhile (fun c => c ≠ ('_'))).drop 1))
  | _ => none

set_option maxRecDepth 8000 in
/-- C8 (amended): the indexer partitions chunks into fixed-size batches
with default batch size 50; across a full indexing run of 250 chunks at
batch size 100, all generated vector-record ids (derived from batch
index and in-batch offset) are pairwise distinct. -/
theorem c8_batch_ids_unique (embed : String → List ℚ)
    (upsert : List VectorRec → Except String Unit) (chunks : List ChunkRec)
    (h250 : chunks.length = 250) :
    defaultBatchSize = 50
    ∧ (runVectorIds
        ((generate_and_store_embeddings embed upsert chunks 100).2)).Nodup := by
  refine ⟨rfl, ?_⟩
  rw [runVectorIds_eq_map, h250]
  have hdec : ∀ p ∈ runPairs 250 100,
      decodeVecId (vecId p.1 p.2) = some p := by decide
  apply List.Nodup.map_on
  · intro x hx y hy hf
    have h1 := hdec x hx
    have h2 := hdec y hy
    rw [hf, h2] at h1
    exact (Option.some.injEq _ _).mp h1.symm
  · decide

/-- Witness for C8 (amended) on a concrete 250-chunk list. -/
theorem c8_batch_ids_unique_witness :
    defaultBatchSize = 50
    ∧ (runVectorIds
        ((generate_and_store_embeddings (fun _ => []) (fun _ => .ok ())
          (List.replicate 250 ⟨("x"), none⟩) 100).2)).Nodup :=
  c8_batch_ids_unique _ _ _ (List.length_replicate 250 _)

instance : Inhabited Turn := ⟨⟨0, false, (""), ("")⟩⟩

/-- Helper for `messageIndex`: walk the history accumulating the
position of the latest turn whose id matches, starting from a default
accumulator.  This is the `{msg[0]: i for i, msg in enumerate(...)}`
dictionary (later entries overwrite earlier ones) combined with
`.get(key, 0)` (rag_system.py 574-575). -/
def dictIndexAux (i : Nat) : Nat → List Turn → Nat → Nat
  | _, [], acc => acc
  | pos, t :: ts, acc => dictIndexAux i (pos + 1) ts (if t.id = i then pos else acc)

/-- The sort key `message_indices.get(msg[0], 0)` of
`_select_relevant_messages` (rag_system.py 574-575). -/
def messageIndex (chat_history : List Turn) (i : Nat) : Nat :=
  dictIndexAux i 0 chat_history 0

/-- The similarity list `np.dot(all_embeddings, query_embedding) / (...)`
(rag_system.py 552-554), with the embedding model and cosine formula
combined into the abstract total collaborator `sim`. -/
def simList (sim : String → String → ℚ) (user_message : String)
    (earlier : List Turn) : List ℚ :=
  earlier.map (fun t => sim user_message t.content)

/-- `np.argsort(similarities)`: the indices sorted by ascending
similarity (tie order in NumPy is unspecified; modelled by a stable
insertion sort). -/
def argsortAsc (sims : List ℚ) : List Nat :=
  (List.range sims.length).insertionSort (fun i j => sims.getD i 0 ≤ sims.getD j 0)

/-- `np.argsort(similarities)[-4:][::-1]` (rag_system.py 557). -/
def topIndices (sims : List ℚ) : List Nat :=
  (takeLast 4 (argsortAsc sims)).reverse

/-- `sorted([idx for idx in top_indices if similarities[idx] > threshold])`
with `threshold = 0.3` (rag_system.py 560-564). -/
def relevantIndices (sims : List ℚ) : List Nat :=
  ((topIndices sims).filter (fun i => (3 : ℚ)/10 < sims.getD i 0)).insertionSort
    (fun a b => a ≤ b)

/-- Embedding of `RAGSystem._select_relevant_messages`
(rag_system.py 525-577).  With at most 6 turns the history is returned
unchanged.  Otherwise the last 6 turns are always included, the earlier
turns are scored against the query by the `sim` collaborator (total in
this model, so the `except` fallback branch at rag_system.py 567-571 is
unreachable), the up-to-4 highest-scoring earlier turns above the 0.3
threshold are appended, and the result is sorted by the
`message_indices` key. -/
def select_relevant_messages (sim : String → String → ℚ)
    (user_message : String) (chat_history : List Turn) : List Turn :=
  if chat_history.length ≤ 6 then chat_history
  else
    if (chat_history.take (chat_history.length - 6)).isEmpty then
      takeLast 6 chat_history
    else
      (takeLast 6 chat_history ++
        (relevantIndices
          (simList sim user_message (chat_history.take (chat_history.length - 6)))).map
          (fun idx => chat_history.getD idx default)).insertionSort
        (fun a b => messageIndex chat_history a.id ≤ messageIndex chat_history b.id)

/-- If no turn has the sought id, the dictionary lookup keeps the
accumulator. -/
theorem dictIndexAux_not_mem (i pos acc : Nat) (ts : List Turn)
    (hno : ∀ t ∈ ts, t.id ≠ i) : dictIndexAux i pos ts acc = acc := by
  induction ts generalizing pos acc with
  | nil => rfl
  | cons t ts ih =>
    simp only [dictIndexAux, if_neg (hno t (by simp))]
    exact ih _ _ (fun u hu => hno u (by simp [hu]))

/-- If exactly one turn in the list has the sought id, the dictionary
lookup returns its position. -/
theorem dictIndexAux_unique (i : Nat) (t : Turn) (ht : t.id = i) :
    ∀ (xs ys : List Turn) (pos acc : Nat),
    (∀ u ∈ xs, u.id ≠ i) → (∀ u ∈ ys, u.id ≠ i) →
    dictIndexAux i pos (xs ++ t :: ys) acc = pos + xs.length := by
  intro xs
  induction xs with
  | nil =>
    intro ys pos acc _ hys
    simp only [List.nil_append, dictIndexAux, if_pos ht]
    rw [dictIndexAux_not_mem _ _ _ _ hys]
    simp
  | cons x xs ih =>
    intro ys pos acc hxs hys
    simp only [List.cons_append, dictIndexAux, List.append_eq,
      if_neg (hxs x (by simp))]
    rw [ih ys (pos + 1) _ (fun u hu => hxs u (by simp [hu])) hys]
    simp only [List.length_cons]
    omega

/-- Under pairwise-distinct turn ids, the sort key of a turn is its
original chronological position. -/
theorem messageIndex_get (chat_history : List Turn)
    (hnodup : (chat_history.map Turn.id).Nodup) (k : Nat)
    (hk : k < chat_history.length) :
    messageIndex chat_history (chat_history[k].id) = k := by
  have hsplit : chat_history
      = chat_history.take k ++ chat_history[k] :: chat_history.drop (k + 1) := by
    rw [← List.drop_eq_getElem_cons hk, List.take_append_drop]
  have hlen : (chat_history.take k).length = k :=
    List.length_take_of_le (Nat.le_of_lt hk)
  rw [hsplit, List.map_append, List.map_cons] at hnodup
  have hdisj := List.disjoint_of_nodup_append hnodup
  have hright := (List.Nodup.of_append_right hnodup)
  rw [List.nodup_cons] at hright
  generalize hgt : chat_history[k] = t at hsplit hdisj hright
  have h1 : ∀ u ∈ chat_history.take k, u.id ≠ t.id := by
    intro u hu hid
    exact hdisj (List.mem_map_of_mem Turn.id hu)
      (by simp [hid])
  have h2 : ∀ u ∈ chat_history.drop (k + 1), u.id ≠ t.id := by
    intro u hu hid
    exact hright.1 (hid ▸ List.mem_map_of_mem Turn.id hu)
  show dictIndexAux t.id 0 chat_history 0 = k
  conv_lhs => rw [hsplit]
  rw [dictIndexAux_unique t.id t rfl _ _ 0 0 h1 h2, hlen, Nat.zero_add]

/-- At most 4 indices survive the top-4 / threshold selection. -/
theorem relevantIndices_length_le (sims : List ℚ) :
    (relevantIndices sims).length ≤ 4 := by
  unfold relevantIndices topIndices takeLast
  rw [List.length_insertionSort]
  refine le_trans (List.length_filter_le _ _) ?_
  rw [List.length_reverse, List.length_drop]
  omega

/-- Every selected index is in range and scores above the threshold. -/
theorem relevantIndices_mem (sims : List ℚ) (i : Nat)
    (hi : i ∈ relevantIndices sims) :
    i < sims.length ∧ (3 : ℚ)/10 < sims.getD i 0 := by
  unfold relevantIndices at hi
  rw [List.mem_insertionSort, List.mem_filter] at hi
  refine ⟨?_, by exact_mod_cast of_decide_eq_true hi.2⟩
  have h1 : i ∈ topIndices sims := hi.1
  unfold topIndices takeLast at h1
  rw [List.mem_reverse] at h1
  have h2 : i ∈ argsortAsc sims := List.mem_of_mem_drop h1
  unfold argsortAsc at h2
  rw [List.mem_insertionSort, List.mem_range] at h2
  exact h2

/-- C7: with at most 6 turns the history is returned unchanged; with more
than 6 turns (and pairwise-distinct turn ids) the selection contains at
least the last 6 turns, is a permutation of those plus at most 4
additional earlier turns whose similarity to the query exceeds 3/10, and
is sorted by the `messageIndex` key, which equals the original
chronological position of each turn. -/
theorem c7_memory_selection (sim : String → String → ℚ) (q : String)
    (h : List Turn) (hnodup : (h.map Turn.id).Nodup) :
    (h.length ≤ 6 → select_relevant_messages sim q h = h)
    ∧ (6 < h.length →
        (∀ t ∈ takeLast 6 h, t ∈ select_relevant_messages sim q h)
        ∧ (select_relevant_messages sim q h).Perm
            (takeLast 6 h ++
              (relevantIndices (simList sim q (h.take (h.length - 6)))).map
                (fun idx => h.getD idx default))
        ∧ (relevantIndices (simList sim q (h.take (h.length - 6)))).length ≤ 4
        ∧ (∀ i ∈ relevantIndices (simList sim q (h.take (h.length - 6))),
            i < h.length - 6 ∧ (3 : ℚ)/10 < sim q (h.getD i default).content
              ∧ h.getD i default ∈ h.take (h.length - 6))
        ∧ (select_relevant_messages sim q h).Sorted
            (fun a b => messageIndex h a.id ≤ messageIndex h b.id)
        ∧ (∀ k, (hk : k < h.length) → messageIndex h (h[k].id) = k)) := by
  constructor
  · intro hle
    unfold select_relevant_messages
    rw [if_pos hle]
  · intro hgt
    have htake_len : (h.take (h.length - 6)).length = h.length - 6 := by
      rw [List.length_take]
      omega
    have htake_ne : h.take (h.length - 6) ≠ [] := by
      apply List.ne_nil_of_length_pos
      omega
    have hsel : select_relevant_messages sim q h
        = (takeLast 6 h ++
            (relevantIndices (simList sim q (h.take (h.length - 6)))).map
              (fun idx => h.getD idx default)).insertionSort
            (fun a b => messageIndex h a.id ≤ messageIndex h b.id) := by
      unfold select_relevant_messages
      rw [if_neg (by omega), if_neg (by simp [htake_ne])]
    have hsim_len : (simList sim q (h.take (h.length - 6))).length
        = h.length - 6 := by
      unfold simList
      rw [List.length_map, htake_len]
    have hperm : (select_relevant_messages sim q h).Perm
        (takeLast 6 h ++
          (relevantIndices (simList sim q (h.take (h.length - 6)))).map
            (fun idx => h.getD idx default)) := by
      rw [hsel]
      exact List.perm_insertionSort _ _
    refine ⟨?_, hperm, relevantIndices_length_le _, ?_, ?_, ?_⟩
    · intro t ht
      exact (hperm.mem_iff).mpr (List.mem_append_left _ ht)
    · intro i hi
      obtain ⟨hilt, hsim⟩ := relevantIndices_mem _ _ hi
      rw [hsim_len] at hilt
      have hih : i < h.length := by omega
      have hi2 : i < (h.take (h.length - 6)).length := by
        rw [htake_len]; omega
      have hgd : h.getD i default = h[i] := List.getD_eq_getElem h default hih
      have hsimval : (simList sim q (h.take (h.length - 6))).getD i 0
          = sim q ((h.take (h.length - 6))[i]).content := by
        unfold simList
        rw [List.getD_eq_getElem _ _ (by rw [List.length_map]; omega),
          List.getElem_map]
      have htk : (h.take (h.length - 6))[i] = h[i] :=
        List.getElem_take _
      refine ⟨hilt, ?_, ?_⟩
      · rw [hgd]
        rw [hsimval, htk] at hsim
        exact hsim
      · rw [hgd, ← htk]
        exact List.getElem_mem _
    · rw [hsel]
      haveI : IsTotal Turn
          (fun a b => messageIndex h a.id ≤ messageIndex h b.id) :=
        ⟨fun a b => Nat.le_total _ _⟩
      haveI : IsTrans Turn
          (fun a b => messageIndex h a.id ≤ messageIndex h b.id) :=
        ⟨fun a b c hab hbc => Nat.le_trans hab hbc⟩
      exact List.sorted_insertionSort _ _
    · intro k hk
      exact messageIndex_get h hnodup k hk

/-- A concrete 7-turn history with distinct ids. -/
def c7hist : List Turn :=
  [⟨1, true, ("alpha"), ("t1")⟩, ⟨2, false, ("beta"), ("t2")⟩,
   ⟨3, true, ("gamma"), ("t3")⟩, ⟨4, false, ("delta"), ("t4")⟩,
   ⟨5, true, ("epsilon"), ("t5")⟩, ⟨6, false, ("zeta"), ("t6")⟩,
   ⟨7, true, ("eta"), ("t7")⟩]

/-- A concrete similarity collaborator. -/
def c7sim : String → String → ℚ := fun _ c => if c = ("alpha") then 1 else 0

/-- Witness for C7 on the concrete 7-turn history. -/
theorem c7_memory_selection_witness :
    (∀ t ∈ takeLast 6 c7hist, t ∈ select_relevant_messages c7sim ("q") c7hist)
    ∧ (select_relevant_messages c7sim ("q") c7hist).Perm
        (takeLast 6 c7hist ++
          (relevantIndices (simList c7sim ("q")
            (c7hist.take (c7hist.length - 6)))).map
            (fun idx => c7hist.getD idx default))
    ∧ (relevantIndices (simList c7sim ("q")
        (c7hist.take (c7hist.length - 6)))).length ≤ 4
    ∧ (∀ i ∈ relevantIndices (simList c7sim ("q")
        (c7hist.take (c7hist.length - 6))),
        i < c7hist.length - 6
          ∧ (3 : ℚ)/10 < c7sim ("q") (c7hist.getD i default).content
          ∧ c7hist.getD i default ∈ c7hist.take (c7hist.length - 6))
    ∧ (select_relevant_messages c7sim ("q") c7hist).Sorted
        (fun a b => messageIndex c7hist a.id ≤ messageIndex c7hist b.id)
    ∧ (∀ k, (hk : k < c7hist.length) → messageIndex c7hist (c7hist[k].id) = k) :=
  (c7_memory_selection c7sim ("q") c7hist (by decide)).2 (by decide)

/-- A chat message handed to the language model. -/
structure ChatMessage where
  role : String
  content : String
deriving DecidableEq

/-- The fixed role/expertise preamble (rag_system.py 320-323). -/
def base_system_message : String :=
  ("\n## Role and Expertise\nYou are the Chief Investment Analyst AI for Golden Gate Ventures, a premier investment management firm. Your expertise spans venture capital, private equity, public markets, and emerging investment opportunities.\n")

/-- Instruction block for `factual` queries (rag_system.py 330-337). -/
def factualBlock : String :=
  ("\n## Query Context: Factual Information Request\nFor this factual query, prioritize:\n- Precise data points, figures, and metrics from the context\n- Clear citation of sources where available\n- Concise, direct answers without unnecessary elaboration\n- Structured presentation of numerical data when relevant\n")

/-- Instruction block for `analytical` queries (rag_system.py 339-347). -/
def analyticalBlock : String :=
  ("\n## Query Context: Analytical Request\nFor this analytical query, prioritize:\n- Thorough examination of multiple perspectives and factors\n- Connecting data points to reveal meaningful patterns and insights\n- Balanced assessment of risks and opportunities\n- Progressive disclosure of complex ideas with clear logical flow\n- Strategic implications and actionable conclusions\n")

/-- Instruction block for `follow_up` queries (rag_system.py 349-356). -/
def followUpBlock : String :=
  ("\n## Query Context: Follow-up Question\nThis appears to be a follow-up to our earlier discussion. Prioritize:\n- Direct connection to previously discussed topics\n- Contextual continuity with our conversation history\n- Progressive building on established concepts\n- Addressing any implicit assumptions from earlier exchanges\n")

/-- Instruction block for `comparative` queries (rag_system.py 358-366). -/
def comparativeBlock : String :=
  ("\n## Query Context: Comparative Analysis Request\nFor this comparative query, prioritize:\n- Side-by-side analysis of the compared elements\n- Clear evaluation criteria and metrics\n- Balanced assessment of strengths and weaknesses\n- Visual organization to highlight key differences\n- Contextual factors that influence the comparison\n")

/-- Instruction block for `market_overview` queries (rag_system.py 368-377). -/
def marketOverviewBlock : String :=
  ("\n## Query Context: Market Overview Request\nFor this market overview query, prioritize:\n- High-level industry trends and market dynamics\n- Key market segments and their relative sizes\n- Growth rates and market trajectory\n- Major players and competitive landscape\n- Macro factors influencing the market\n- Visual representation of market structure when helpful\n")

/-- Instruction block for `company_profile` queries (rag_system.py 379-388). -/
def companyProfileBlock : String :=
  ("\n## Query Context: Company Analysis Request\nFor this company-specific query, prioritize:\n- Company background and core business model\n- Key financial metrics and performance indicators\n- Market position and competitive advantages\n- Growth strategy and recent developments\n- Risk factors and challenges\n- Management team highlights if available\n")

/-- Instruction block for the default comprehensive approach
(rag_system.py 390-397). -/
def generalBlock : String :=
  ("\n## Query Context: Investment Intelligence Request\nDeliver investment intelligence that is:\n- Thoroughly researched (based exclusively on the provided context)\n- Precisely articulated (with specific metrics, figures, and dates)\n- Professionally presented (with clear structure)\n- Actionable for investment decision-making\n")

/-- The universal requirements plus numeric-presentation block appended to
every system message (rag_system.py 400-420). -/
def universalBlock : String :=
  ("\n## Universal Response Requirements\n1. Extract relevant information from the context that directly addresses the query\n2. Include specific metrics and figures when available\n3. Only use information contained in the provided context material\n4. Begin with a concise executive summary or key takeaway\n5. Maintain awareness of our entire conversation history\n\n## Numeric Presentation Guidelines\n- Always format numeric values for maximum readability\n- Use comma separators for thousands (e.g., 1,234,567)\n- Round decimal values to 2 decimal places when appropriate\n- For very large numbers, use millions/billions notation (e.g., 3.5M, 2.1B)\n- Clearly distinguish between percentages, absolute numbers, and monetary values\n- Use consistent decimal precision across related numeric values\n- When presenting financial data, use appropriate decimal places:\n  * Percentages: 2 decimal places (e.g., 12.45%)\n  * Currency: 2 decimal places (e.g., $1,234.56)\n  * Large numbers: Millions/Billions notation\n- Ensure numeric values are easily readable and comprehensible\n")

/-- Embedding of `RAGSystem._enhance_context_presentation`
(rag_system.py 506-523). -/
def enhance_context_presentation (context query_type : String) : String :=
  let chunks := context.splitOn ("\n\n")
  if chunks.length ≤ 1 ∨ query_type = ("follow_up") then context
  else
    String.intercalate ("\n\n")
      (chunks.enum.filterMap (fun p =>
        if pyStrip p.2 ≠ ("") then
          some (("SOURCE ") ++ toString (p.1 + 1) ++ (":\n") ++ pyStrip p.2)
        else none))

/-- Embedding of `RAGSystem._format_context_for_query`
(rag_system.py 448-504). -/
def format_context_for_query (user_message context query_type : String) : String :=
  ("## Investment Intelligence Briefing\n\n")
  ++ (if query_type = ("factual") then ("### Factual Information Sources\n")
      else if query_type = ("analytical") then ("### Analysis Source Material\n")
      else if query_type = ("comparative") then ("### Comparative Analysis Sources\n")
      else if query_type = ("follow_up") then ("### Additional Context for Follow-up\n")
      else if query_type = ("market_overview") then ("### Market Research Sources\n")
      else if query_type = ("company_profile") then ("### Company Information Sources\n")
      else ("### Source Material\n"))
  ++ enhance_context_presentation context query_type ++ ("\n\n")
  ++ (if query_type = ("follow_up") then
        ("### Follow-up Query\n") ++ user_message ++ ("\n\n")
          ++ ("Remember to connect this to our previous discussion points and answer in context of our conversation history.\n")
      else if query_type = ("comparative") then
        ("### Comparative Analysis Request\n") ++ user_message ++ ("\n\n")
          ++ ("Present a balanced and structured comparison of the elements mentioned.\n")
      else if query_type = ("analytical") then
        ("### Analysis Request\n") ++ user_message ++ ("\n\n")
          ++ ("Provide strategic insights and connect different data points into a cohesive analysis.\n")
      else if query_type = ("factual") then
        ("### Factual Query\n") ++ user_message ++ ("\n\n")
          ++ ("Provide precise information with specific figures and metrics where available.\n")
      else if query_type = ("market_overview") then
        ("### Market Overview Request\n") ++ user_message ++ ("\n\n")
          ++ ("Provide a comprehensive view of market dynamics, trends, and competitive landscape.\n")
      else if query_type = ("company_profile") then
        ("### Company Analysis Request\n") ++ user_message ++ ("\n\n")
          ++ ("Provide a concise company profile with key metrics and performance indicators.\n")
      else ("### Current Query\n") ++ user_message ++ ("\n\n"))

/-- Embedding of `RAGSystem._prepare_messages_with_memory`
(rag_system.py 315-446): system message shaped by the query label, the
conversation-memory system message when a summary exists, the selected
history turns, and the final context-bearing user message. -/
def prepare_messages_with_memory (sim : String → String → ℚ)
    (conversation_summary user_message : String) (chat_history : List Turn)
    (context : String) : List ChatMessage :=
  let query_type := analyze_query_type user_message chat_history
  let system_message := base_system_message
    ++ (if query_type = ("factual") then factualBlock
        else if query_type = ("analytical") then analyticalBlock
        else if query_type = ("follow_up") then followUpBlock
        else if query_type = ("comparative") then comparativeBlock
        else if query_type = ("market_overview") then marketOverviewBlock
        else if query_type = ("company_profile") then companyProfileBlock
        else generalBlock)
    ++ universalBlock
  ([⟨("system"), system_message⟩]
    ++ (if conversation_summary ≠ ("") then
          [⟨("system"),
            ("## Conversation Memory\nKey topics and information from previous exchanges:\n\n")
              ++ conversation_summary⟩]
        else [])
    ++ (select_relevant_messages sim user_message chat_history).map
        (fun e => ⟨if e.isUser then ("user") else ("assistant"), e.content⟩))
    ++ [⟨("user"), format_context_for_query user_message context query_type⟩]

/-- The fixed user-visible error string of the generation fallback
(rag_system.py 254). -/
def chatStreamErrorText : String :=
  ("Error generating response. Please try again.")

/-- Embedding of the second (overriding) definition of
`RAGSystem.generate_response_stream` (rag_system.py 229-255).  The
streaming chat call is the `chatStream` collaborator (its stream of
events is modelled as the list of emitted text chunks); `chat` backs the
memory update.  The function returns the pair `(stream, retrieved_docs)`
together with the new `conversation_summary` field value; a retrieval
error propagates (`Except.error`), a generation error is caught and
turned into the fixed single-element error stream with an empty document
list. -/
def generate_response_stream
    (vectorQuery : String → Except String (List VMatch))
    (rerank : String → List String → Nat → Except String (List RerankResult))
    (summarize : String → Except String String)
    (chat : String → Except String String)
    (chatStream : List ChatMessage → Except String (List String))
    (sim : String → String → ℚ)
    (conversation_summary : String)
    (user_message : String) (chat_history : List Turn) :
    Except String ((List String × List RetrievedDoc) × String) :=
  match retrieve_documents vectorQuery rerank summarize user_message chat_history with
  | .error e => .error e
  | .ok retrieved_docs =>
    match chatStream (prepare_messages_with_memory sim conversation_summary
        user_message chat_history
        (String.intercalate ("\n\n") (retrieved_docs.map (fun d => d.text)))) with
    | .ok stream =>
      .ok ((stream, retrieved_docs),
        update_conversation_memory chat conversation_summary user_message chat_history)
    | .error _ => .ok (([chatStreamErrorText], []), conversation_summary)

/-- C1 counterexample: `generate_response_stream` CAN raise.  When the
vector-store query raises, the exception escapes `generate` (retrieval
happens before the `try` block), so the function does not always return
a stream/document pair. -/
theorem c1_generate_raises_counterexample :
    generate_response_stream (fun _ => .error ("pinecone down"))
        (fun _ _ _ => .ok []) (fun _ => .ok ("")) (fun _ => .ok (""))
        (fun _ => .ok [("answer")]) (fun _ _ => 0) ("") ("q") []
      = .error ("pinecone down")
    ∧ ∀ v, generate_response_stream (fun _ => .error ("pinecone down"))
        (fun _ _ _ => .ok []) (fun _ => .ok ("")) (fun _ => .ok (""))
        (fun _ => .ok [("answer")]) (fun _ _ => 0) ("") ("q") []
      ≠ .ok v := by
  have h : generate_response_stream (fun _ => .error ("pinecone down"))
      (fun _ _ _ => .ok []) (fun _ => .ok ("")) (fun _ => .ok (""))
      (fun _ => .ok [("answer")]) (fun _ _ => 0) ("") ("q") []
      = .error ("pinecone down") := rfl
  exact ⟨h, fun v hv => by rw [h] at hv; cases hv⟩

/-- C1 amended: when retrieval succeeds, a generation (chat-stream) error
is caught and converted into the pair of a single-element stream yielding
the fixed error string and an empty document list, with the stored
summary unchanged; errors raised by retrieval itself propagate (see the
counterexample). -/
theorem c1_generation_error_apology
    (vectorQuery : String → Except String (List VMatch))
    (rerank : String → List String → Nat → Except String (List RerankResult))
    (summarize : String → Except String String)
    (chat : String → Except String String)
    (sim : String → String → ℚ)
    (conversation_summary user_message : String) (chat_history : List Turn)
    (e : String) (docs : List RetrievedDoc)
    (hret : retrieve_documents vectorQuery rerank summarize user_message
      chat_history = .ok docs) :
    generate_response_stream vectorQuery rerank summarize chat
        (fun _ => .error e) sim conversation_summary user_message chat_history
      = .ok (([chatStreamErrorText], []), conversation_summary) := by
  unfold generate_response_stream
  rw [hret]

/-- Witness for C1 (amended): an empty vector store and an
always-failing generation collaborator yield the fixed error stream and
no documents. -/
theorem c1_generation_error_apology_witness :
    generate_response_stream (fun _ => .ok []) (fun _ _ _ => .ok [])
        (fun _ => .ok ("")) (fun _ => .ok (""))
        (fun _ => .error ("model down")) (fun _ _ => 0) ("prior summary")
        ("q") []
      = .ok (([chatStreamErrorText], []), ("prior summary")) :=
  c1_generation_error_apology _ _ _ _ _ _ _ _ ("model down") [] rfl

/-- An abstract tokenizer.  `tiktoken.get_encoding("cl100k_base")`
(chunking.py 5) is an external collaborator: only the interface used by
the chunker (encode to a token list, decode a token list back to text)
is modelled. -/
structure Tok where
  encode : String → List Nat
  decode : List Nat → String

/-- `count_tokens` (chunking.py 10-11). -/
def count_tokens (tk : Tok) (text : String) : Nat := (tk.encode text).length

/-- Slices of size `m`, the loop `range(0, len(tokens), max_tokens)` of
`split_text_by_tokens` (chunking.py 16-19).  With `m = 0` Python would
raise `ValueError`; the model returns `[]` there, a region excluded by
the theorem hypotheses (the heading prefix fits strictly inside the
budget). -/
def chunkify (m : Nat) (l : List α) : List (List α) :=
  if _hm : m = 0 then []
  else
    match l with
    | [] => []
    | x :: xs => (x :: xs).take m :: chunkify m ((x :: xs).drop m)
termination_by l.length
decreasing_by
  rw [List.length_drop]
  simp only [List.length_cons]
  omega

/-- `split_text_by_tokens` (chunking.py 13-20). -/
def split_text_by_tokens (tk : Tok) (text : String) (max_tokens : Nat) :
    List String :=
  (chunkify max_tokens (tk.encode text)).map tk.decode

/-- The characters `[.!?]` of the sentence-boundary lookbehind
(chunking.py 40). -/
def isSentEnd (c : Char) : Bool := c = ('.') || c = ('!') || c = ('?')

/-- Scanner for `re.split` on the pattern `(?<!://)(?<=[.!?])\s+`
(chunking.py 40): split at each maximal whitespace run immediately
preceded by `.`, `!` or `?`.  The negative lookbehind `(?<!://)` can
never veto a match, because the positive lookbehind already forces the
preceding character to be one of `.!?`, never `/`.  The boolean carries
whether the previous character was a sentence-end character. -/
def sentSplitAux : Bool → List Char → List Char → List (List Char)
  | _, acc, [] => [acc.reverse]
  | p_end, acc, c :: cs =>
    if p_end && c.isWhitespace then
      acc.reverse :: sentSplitAux false [] (cs.dropWhile Char.isWhitespace)
    else
      sentSplitAux (isSentEnd c) (c :: acc) cs
termination_by _ _ l => l.length
decreasing_by
  · exact Nat.lt_succ_of_le (dropWhile_length_le _ _)
  · simp

/-- Sentence splitting of one block (chunking.py 58). -/
def sentenceSplit (block : String) : List String :=
  (sentSplitAux false [] block.toList).map String.mk

/-- Scanner for `re.split(r'\n+', content)` (chunking.py 48): split at
each maximal newline run. -/
def splitBlocksAux : List Char → List Char → List (List Char)
  | acc, [] => [acc.reverse]
  | acc, c :: cs =>
    if c = ('\n') then
      acc.reverse :: splitBlocksAux [] (cs.dropWhile (fun x => x = ('\n')))
    else splitBlocksAux (c :: acc) cs
termination_by _ l => l.length
decreasing_by
  · exact Nat.lt_succ_of_le (dropWhile_length_le _ _)
  · simp

/-- Paragraph blocks of a section content (chunking.py 48). -/
def splitBlocks (content : String) : List String :=
  (splitBlocksAux [] content.toList).map String.mk

/-- A produced chunk `{"text": ..., "metadata": {"main_heading": ...}}`
(chunking.py 71-74). -/
structure Chunk where
  text : String
  main_heading : String
deriving DecidableEq

/-- Python `" ".join(...)` . -/
def joinSpace : List String → String
  | [] => ("")
  | [u] => u
  | u :: v :: rest => u ++ (" ") ++ joinSpace (v :: rest)

/-- The mutable loop state of `chunk_content`: emitted chunks,
`current_chunk_units` and `current_chunk_token_count`. -/
structure ChunkState where
  chunks : List Chunk
  current_chunk_units : List String
  current_chunk_token_count : Nat
deriving DecidableEq

/-- `prefix + " ".join(current_chunk_units).strip()` packaged as a chunk
(chunking.py 70-74; the `strip()` applies to the join result only). -/
def emitChunk (hp main_heading : String) (units : List String) : Chunk :=
  ⟨hp ++ pyStrip (joinSpace units), main_heading⟩

/-- Append one accumulation unit, flushing the current chunk first when
it would overflow the budget (the repeated flush/append pattern of
chunking.py 69-78, 80-89 and 91-100). -/
def appendUnit (tk : Tok) (max_tokens : Nat) (hp main_heading : String)
    (prefix_tokens : Nat) (st : ChunkState) (unit : String) : ChunkState :=
  if st.current_chunk_token_count + count_tokens tk unit > max_tokens then
    ⟨st.chunks ++ [emitChunk hp main_heading st.current_chunk_units],
     [unit], prefix_tokens + count_tokens tk unit⟩
  else
    ⟨st.chunks, st.current_chunk_units ++ [unit],
     st.current_chunk_token_count + count_tokens tk unit⟩

/-- The sentence-level body of the big-block branch (chunking.py 59-89):
skip empty subunits, hard-split oversized sentences by raw token count
(each stripped slice is appended as a unit), and append fitting
sentences directly. -/
def processSubunit (tk : Tok) (max_tokens : Nat) (hp main_heading : String)
    (prefix_tokens : Nat) (st : ChunkState) (subunit : String) : ChunkState :=
  if pyStrip subunit = ("") then st
  else if count_tokens tk (pyStrip subunit) > max_tokens - prefix_tokens then
    (split_text_by_tokens tk (pyStrip subunit) (max_tokens - prefix_tokens)).foldl
      (fun st2 token_split =>
        appendUnit tk max_tokens hp main_heading prefix_tokens st2
          (pyStrip token_split)) st
  else appendUnit tk max_tokens hp main_heading prefix_tokens st (pyStrip subunit)

/-- The block-level loop body (chunking.py 52-100): skip empty blocks,
sentence-split oversized blocks, append fitting blocks directly. -/
def processBlock (tk : Tok) (max_tokens : Nat) (hp main_heading : String)
    (prefix_tokens : Nat) (st : ChunkState) (block : String) : ChunkState :=
  if pyStrip block = ("") then st
  else if count_tokens tk (pyStrip block) > max_tokens - prefix_tokens then
    (sentenceSplit (pyStrip block)).foldl
      (processSubunit tk max_tokens hp main_heading prefix_tokens) st
  else appendUnit tk max_tokens hp main_heading prefix_tokens st (pyStrip block)

/-- The per-section heading prefix
`f"# {main_heading}\n\n" if main_heading else ""` (chunking.py 44). -/
def headingPrefixOf (main_heading : String) : String :=
  if main_heading ≠ ("") then ("# ") ++ main_heading ++ ("\n\n") else ("")

/-- The block loop of one section (chunking.py 48-100), starting from an
empty accumulation at `prefix_tokens`. -/
def sectionFold (tk : Tok) (max_tokens : Nat) (sec : MdSection) : ChunkState :=
  (splitBlocks sec.content).foldl
    (processBlock tk max_tokens (headingPrefixOf sec.main_heading)
      sec.main_heading (count_tokens tk (headingPrefixOf sec.main_heading)))
    ⟨[], [], count_tokens tk (headingPrefixOf sec.main_heading)⟩

/-- One section of the `chunk_content` outer loop (chunking.py 42-107):
fold the blocks, then flush a trailing non-empty accumulation. -/
def processSection (tk : Tok) (max_tokens : Nat) (sec : MdSection) :
    List Chunk :=
  (sectionFold tk max_tokens sec).chunks ++
    (if ¬(sectionFold tk max_tokens sec).current_chunk_units.isEmpty then
      [emitChunk (headingPrefixOf sec.main_heading) sec.main_heading
        (sectionFold tk max_tokens sec).current_chunk_units]
    else [])

/-- Embedding of `chunk_content` (chunking.py 38-109); the source default
budget is `max_tokens=500`. -/
def chunk_content (tk : Tok) (parsed_data : List MdSection)
    (max_tokens : Nat) : List Chunk :=
  parsed_data.flatMap (processSection tk max_tokens)

/-- Tokenizer facts the chunk bound relies on: re-encoding a stripped
decoded token slice yields at most as many tokens as the slice, and
token counting is subadditive across the prefix/space-join assembly of a
chunk text. -/
def TokSound (tk : Tok) : Prop :=
  (∀ ts : List Nat, count_tokens tk (pyStrip (tk.decode ts)) ≤ ts.length)
  ∧ (∀ (p : String) (us : List String),
      count_tokens tk (p ++ pyStrip (joinSpace us))
        ≤ count_tokens tk p + (us.map (count_tokens tk)).sum)

/-- Every slice produced by `chunkify m` has length at most `m`. -/
theorem chunkify_length_le {α : Type} (m : Nat) :
    ∀ (n : Nat) (l : List α), l.length ≤ n → ∀ c ∈ chunkify m l, c.length ≤ m := by
  intro n
  induction n with
  | zero =>
    intro l hl c hc
    have hnil : l = [] := List.eq_nil_of_length_eq_zero (Nat.le_zero.mp hl)
    subst hnil
    rw [chunkify.eq_def] at hc
    split at hc
    · cases hc
    · cases hc
  | succ k ih =>
    intro l hl c hc
    rw [chunkify.eq_def] at hc
    split at hc
    · cases hc
    · next hm =>
      cases l with
      | nil => cases hc
      | cons x xs =>
        rw [List.mem_cons] at hc
        rcases hc with hc | hc
        · subst hc
          exact le_trans (List.length_take_le _ _) (le_refl m)
        · refine ih ((x :: xs).drop m) ?_ c hc
          rw [List.length_drop]
          simp only [List.length_cons] at hl ⊢
          omega

/-- The loop invariant of `chunk_content`: the running count is the
prefix count plus the unit counts, it respects the budget, and every
emitted chunk respects the budget. -/
def StInv (tk : Tok) (B pT : Nat) (st : ChunkState) : Prop :=
  st.current_chunk_token_count
      = pT + (st.current_chunk_units.map (count_tokens tk)).sum
  ∧ st.current_chunk_token_count ≤ B
  ∧ ∀ ch ∈ st.chunks, count_tokens tk ch.text ≤ B

/-- Folding a state-invariant-preserving step preserves the invariant. -/
theorem foldl_inv_mem {β : Type} {P : ChunkState → Prop}
    (f : ChunkState → β → ChunkState) (l : List β)
    (hstep : ∀ st x, x ∈ l → P st → P (f st x)) :
    ∀ st, P st → P (l.foldl f st) := by
  induction l with
  | nil => intro st h; exact h
  | cons x t ih =>
    intro st h
    exact ih (fun st2 y hy h2 => hstep st2 y (List.mem_cons_of_mem x hy) h2) _
      (hstep st x (List.mem_cons_self x t) h)

/-- A flushed chunk whose accounted size fits the budget has a token
count within the budget. -/
theorem emitChunk_le (tk : Tok) (hsound : TokSound tk) (B pT : Nat)
    (hp main_heading : String) (hpT : count_tokens tk hp = pT)
    (units : List String)
    (hsum : pT + (units.map (count_tokens tk)).sum ≤ B) :
    count_tokens tk (emitChunk hp main_heading units).text ≤ B := by
  show count_tokens tk (hp ++ pyStrip (joinSpace units)) ≤ B
  refine le_trans (hsound.2 hp units) ?_
  rw [hpT]
  exact hsum

/-- Appending a unit whose token count fits the available budget
preserves the invariant. -/
theorem appendUnit_inv (tk : Tok) (hsound : TokSound tk) (B : Nat)
    (hp main_heading : String) (pT : Nat) (hpT : count_tokens tk hp = pT)
    (hpTB : pT ≤ B) (st : ChunkState) (u : String)
    (hu : count_tokens tk u ≤ B - pT) (hst : StInv tk B pT st) :
    StInv tk B pT (appendUnit tk B hp main_heading pT st u) := by
  obtain ⟨hacc, hbound, hchunks⟩ := hst
  unfold appendUnit
  split
  · next hover =>
    refine ⟨?_, ?_, ?_⟩
    · show pT + count_tokens tk u
        = pT + (([u]).map (count_tokens tk)).sum
      simp
    · show pT + count_tokens tk u ≤ B
      omega
    · intro ch hch
      rw [List.mem_append] at hch
      rcases hch with hch | hch
      · exact hchunks ch hch
      · rw [List.mem_singleton] at hch
        subst hch
        exact emitChunk_le tk hsound B pT hp main_heading hpT _ (hacc ▸ hbound)
  · next hover =>
    refine ⟨?_, ?_, hchunks⟩
    · show st.current_chunk_token_count + count_tokens tk u
        = pT + ((st.current_chunk_units ++ [u]).map (count_tokens tk)).sum
      rw [List.map_append, List.sum_append, hacc]
      simp [Nat.add_assoc]
    · show st.current_chunk_token_count + count_tokens tk u ≤ B
      omega

/-- One sentence subunit preserves the invariant. -/
theorem processSubunit_inv (tk : Tok) (hsound : TokSound tk) (B : Nat)
    (hp main_heading : String) (pT : Nat) (hpT : count_tokens tk hp = pT)
    (hpTB : pT ≤ B) (st : ChunkState) (subunit : String)
    (hst : StInv tk B pT st) :
    StInv tk B pT (processSubunit tk B hp main_heading pT st subunit) := by
  unfold processSubunit
  split
  · exact hst
  · split
    · refine foldl_inv_mem _ _ ?_ st hst
      intro st2 x hx h2
      refine appendUnit_inv tk hsound B hp main_heading pT hpT hpTB st2 _ ?_ h2
      unfold split_text_by_tokens at hx
      rw [List.mem_map] at hx
      obtain ⟨c, hc, rfl⟩ := hx
      exact le_trans (hsound.1 c)
        (chunkify_length_le (B - pT) _ _ (le_refl _) c hc)
    · next hover =>
      refine appendUnit_inv tk hsound B hp main_heading pT hpT hpTB st _ ?_ hst
      omega

/-- One block preserves the invariant. -/
theorem processBlock_inv (tk : Tok) (hsound : TokSound tk) (B : Nat)
    (hp main_heading : String) (pT : Nat) (hpT : count_tokens tk hp = pT)
    (hpTB : pT ≤ B) (st : ChunkState) (block : String)
    (hst : StInv tk B pT st) :
    StInv tk B pT (processBlock tk B hp main_heading pT st block) := by
  unfold processBlock
  split
  · exact hst
  · split
    · refine foldl_inv_mem _ _ ?_ st hst
      intro st2 x _ h2
      exact processSubunit_inv tk hsound B hp main_heading pT hpT hpTB st2 x h2
    · next hover =>
      refine appendUnit_inv tk hsound B hp main_heading pT hpT hpTB st _ ?_ hst
      omega

/-- Every chunk of a section whose heading prefix fits the budget
respects the budget. -/
theorem processSection_le (tk : Tok) (hsound : TokSound tk) (B : Nat)
    (sec : MdSection)
    (hfit : count_tokens tk (headingPrefixOf sec.main_heading) ≤ B) :
    ∀ ch ∈ processSection tk B sec, count_tokens tk ch.text ≤ B := by
  intro ch hch
  have hinv : StInv tk B (count_tokens tk (headingPrefixOf sec.main_heading))
      (sectionFold tk B sec) := by
    refine foldl_inv_mem _ _ ?_ _ ⟨by simp, hfit, by simp⟩
    intro st x _ h
    exact processBlock_inv tk hsound B _ _ _ rfl hfit st x h
  unfold processSection at hch
  rw [List.mem_append] at hch
  rcases hch with hch | hch
  · exact hinv.2.2 ch hch
  · split at hch
    · rw [List.mem_singleton] at hch
      subst hch
      exact emitChunk_le tk hsound B _ _ _ rfl _ (hinv.1 ▸ hinv.2.1)
    · cases hch

/-- C2: for every parsed document and every token budget `B` that
strictly exceeds each heading-prefix count (in this region the model
agrees with the Python integer arithmetic), every chunk produced by
`chunk_content` with budget `B`, including the hard-token-split
remainder chunks, satisfies `count_tokens (chunk.text) ≤ B` for any
tokenizer satisfying `TokSound`. -/
theorem c2_chunk_token_bound (tk : Tok) (hsound : TokSound tk)
    (parsed_data : List MdSection) (B : Nat)
    (hfit : ∀ sec ∈ parsed_data,
      count_tokens tk (headingPrefixOf sec.main_heading) < B) :
    ∀ ch ∈ chunk_content tk parsed_data B, count_tokens tk ch.text ≤ B := by
  intro ch hch
  unfold chunk_content at hch
  rw [List.mem_flatMap] at hch
  obtain ⟨sec, hsec, hch⟩ := hch
  exact processSection_le tk hsound B sec (le_of_lt (hfit sec hsec)) ch hch

/-- A concrete tokenizer for witnesses: one token per non-whitespace
character. -/
def tkNS : Tok :=
  ⟨fun s => (s.toList.filter (fun c => !c.isWhitespace)).map Char.toNat,
   fun ts => String.mk (ts.map Char.ofNat)⟩

/-- `String.mk` and `String.toList` are inverse. -/
theorem toList_mk (l : List Char) : (String.mk l).toList = l := rfl

/-- Dropping leading whitespace does not change the non-whitespace
content. -/
theorem filter_dropWhile_ws (l : List Char) :
    (l.dropWhile Char.isWhitespace).filter (fun c => !c.isWhitespace)
      = l.filter (fun c => !c.isWhitespace) := by
  induction l with
  | nil => rfl
  | cons a t ih =>
    cases ha : Char.isWhitespace a with
    | false => simp [List.dropWhile, ha]
    | true => simp [List.dropWhile, List.filter, ha, ih]

/-- Stripping does not change the non-whitespace content. -/
theorem filter_stripChars (l : List Char) :
    (stripChars l).filter (fun c => !c.isWhitespace)
      = l.filter (fun c => !c.isWhitespace) := by
  unfold stripChars
  rw [List.filter_reverse, filter_dropWhile_ws, List.filter_reverse,
    filter_dropWhile_ws, List.reverse_reverse]

/-- The witness tokenizer counts non-whitespace characters. -/
theorem count_tkNS (s : String) :
    count_tokens tkNS s = (s.toList.filter (fun c => !c.isWhitespace)).length := by
  show ((s.toList.filter (fun c => !c.isWhitespace)).map Char.toNat).length = _
  rw [List.length_map]

/-- Stripping is invisible to the witness tokenizer count. -/
theorem count_tkNS_pyStrip (s : String) :
    count_tokens tkNS (pyStrip s) = count_tokens tkNS s := by
  rw [count_tkNS, count_tkNS]
  show ((stripChars s.toList).filter (fun c => !c.isWhitespace)).length = _
  rw [filter_stripChars]

/-- The witness tokenizer count is additive over string append. -/
theorem count_tkNS_append (a b : String) :
    count_tokens tkNS (a ++ b) = count_tokens tkNS a + count_tokens tkNS b := by
  rw [count_tkNS, count_tkNS, count_tkNS]
  show ((a.toList ++ b.toList).filter (fun c => !c.isWhitespace)).length = _
  rw [List.filter_append, List.length_append]

/-- Joining with single spaces is invisible to the witness tokenizer
count. -/
theorem count_tkNS_joinSpace (us : List String) :
    count_tokens tkNS (joinSpace us) = (us.map (count_tokens tkNS)).sum := by
  induction us with
  | nil => rfl
  | cons u rest ih =>
    cases rest with
    | nil => simp [joinSpace]
    | cons v rest2 =>
      show count_tokens tkNS (u ++ (" ") ++ joinSpace (v :: rest2)) = _
      rw [count_tkNS_append, count_tkNS_append, ih]
      have hsp : count_tokens tkNS (" ") = 0 := rfl
      rw [hsp]
      simp

/-- The witness tokenizer satisfies the tokenizer facts. -/
theorem tkNS_sound : TokSound tkNS := by
  constructor
  · intro ts
    rw [count_tkNS_pyStrip, count_tkNS]
    calc ((String.mk (ts.map Char.ofNat)).toList.filter
            (fun c => !c.isWhitespace)).length
        ≤ (ts.map Char.ofNat).length := by
          rw [toList_mk]
          exact List.length_filter_le _ _
      _ = ts.length := List.length_map _ _
  · intro p us
    rw [count_tkNS_append, count_tkNS_pyStrip, count_tkNS_joinSpace]

/-- A concrete section for the C2 witness. -/
def c2sec : MdSection :=
  ⟨("Head"), ("one two three four. five six seven eight nine")⟩

/-- Witness for C2: the witness tokenizer, one concrete section and
budget 8 (its heading prefix counts 5 tokens). -/
theorem c2_chunk_token_bound_witness :
    (∀ sec ∈ [c2sec], count_tokens tkNS (headingPrefixOf sec.main_heading) < 8)
    ∧ ∀ ch ∈ chunk_content tkNS [c2sec] 8, count_tokens tkNS ch.text ≤ 8 :=
  ⟨by decide, c2_chunk_token_bound tkNS tkNS_sound [c2sec] 8 (by decide)⟩

end GGV
